import Mathlib

/-!
Verification of the Raft consensus core of this repository.

The Go source `raft.go` (package `raft`) is embedded shallowly below:
`uint64` becomes `Nat` (no arithmetic here ever reaches 2^64), Go maps
become association lists, pointer mutation becomes functional record
update, and `log.Fatal` / runtime panics become the `StepResult.fatal`
outcome.  Definitions that translate a lab stub (`panic("Your code
here")`) or a file absent from the sources (the RaftLog implementation,
the RawNode facade) are modelled from the specification and say so in
their doc comment.
-/

/-- Entry kinds, from eraftpb: Normal data entries and ConfChange entries. -/
inductive EntryType where
  | Normal
  | ConfChange
deriving DecidableEq, Repr

/-- A log entry `{term, index, kind, payload}`; the payload is opaque bytes,
modelled as a list of naturals. -/
structure Entry where
  entryType : EntryType := .Normal
  term : Nat := 0
  index : Nat := 0
  data : List Nat := []
deriving DecidableEq, Repr

/-- Snapshot metadata `{index, term, conf_state.nodes}`; the opaque data
blob is irrelevant to the state machine and omitted. -/
structure Snap where
  index : Nat := 0
  term : Nat := 0
  nodes : List Nat := []
deriving DecidableEq, Repr

/-- Durable state `{term, vote, commit}`. -/
structure HardState where
  term : Nat := 0
  vote : Nat := 0
  commit : Nat := 0
deriving DecidableEq, Repr

/-- The message kinds of eraftpb handled by `Raft.Step`. -/
inductive MsgType where
  | Hup
  | Beat
  | Propose
  | Append
  | AppendResponse
  | RequestVote
  | RequestVoteResponse
  | Snapshot
  | Heartbeat
  | HeartbeatResponse
  | TransferLeader
  | TimeoutNow
deriving DecidableEq, Repr

/-- An eraftpb message.  The Go fields `From` and `To` are spelled
`mfrom` and `mto` because `from` and `to` are reserved in Lean. -/
structure Message where
  msgType : MsgType := .Hup
  mto : Nat := 0
  mfrom : Nat := 0
  term : Nat := 0
  logTerm : Nat := 0
  index : Nat := 0
  entries : List Entry := []
  commit : Nat := 0
  snapshot : Option Snap := none
  reject : Bool := false
  rejectHint : Nat := 0
deriving DecidableEq, Repr

/-- The role of a node: StateFollower, StateCandidate, StateLeader. -/
inductive StateType where
  | Follower
  | Candidate
  | Leader
deriving DecidableEq, Repr

/-- Outcome of `Raft.Step`: `ok` is a nil error, `proposalDropped` is
`ErrProposalDropped`, and `fatal` models `log.Fatal` / a panic. -/
inductive StepResult where
  | ok
  | proposalDropped
  | fatal
deriving DecidableEq, Repr

/-- Per-peer replication progress `{Match, Next}` (raft.go lines 961-965). -/
structure Progress where
  Match : Nat := 0
  Next : Nat := 0
deriving DecidableEq, Repr

/-- `Progress.maybeUpdate` (raft.go lines 967-979): returns false if the
given index `n` comes from an outdated message, otherwise updates the
progress and returns true.  The Go method mutates in place; here the
updated record is returned together with the boolean. -/
def Progress.maybeUpdate (pr : Progress) (n : Nat) : Progress × Bool :=
  let updated := pr.Match < n
  let pr := if pr.Match < n then { pr with Match := n } else pr
  let pr := if pr.Next < n + 1 then { pr with Next := n + 1 } else pr
  (pr, updated)

/-- `Progress.maybeDecrTo` (raft.go lines 981-993): returns false if the
rejected index is stale (`rejected ≤ Match`); otherwise decreases `Next`
to `min rejected (last+1)`, clamped to at least 1, and returns true. -/
def Progress.maybeDecrTo (pr : Progress) (rejected last : Nat) : Progress × Bool :=
  if rejected ≤ pr.Match then
    (pr, false)
  else
    let nxt := min rejected (last + 1)
    ({ pr with Next := if nxt < 1 then 1 else nxt }, true)

/-- Modelled from the spec: the RaftLog implementation is not among the
provided sources (only `raft.go` is), so the log is built from §4.1 of
the specification.  `snapIndex`/`snapTerm` are the boundary of the last
snapshot (`first_index - 1`); entries are dense, the entry at list
position `k` having index `snapIndex + 1 + k`. -/
structure RaftLog where
  entries : List Entry := []
  snapIndex : Nat := 0
  snapTerm : Nat := 0
  snapNodes : List Nat := []
  committed : Nat := 0
  applied : Nat := 0
  pendingSnapshot : Option Snap := none
deriving DecidableEq, Repr

/-- Modelled from the spec: `last_index()` is the last index present,
reporting the snapshot boundary when the log is empty. -/
def RaftLog.lastIndex (l : RaftLog) : Nat :=
  l.snapIndex + l.entries.length

/-- Modelled from the spec: `term(i)` fails (Compacted) below the
snapshot boundary, answers the snapshot term at the boundary, and fails
(Unavailable) past `last_index`. -/
def RaftLog.Term (l : RaftLog) (i : Nat) : Option Nat :=
  if i < l.snapIndex then none
  else if i = l.snapIndex then some l.snapTerm
  else (l.entries.get? (i - l.snapIndex - 1)).map Entry.term

/-- Modelled from the spec: `last_term()` is the term of the last entry. -/
def RaftLog.lastTerm (l : RaftLog) : Nat :=
  (l.Term l.lastIndex).getD 0

/-- Modelled from the spec: `match_term(i, t)` is true iff `term(i) = t`,
with lookup errors treated as false. -/
def RaftLog.matchTerm (l : RaftLog) (i t : Nat) : Bool :=
  l.Term i == some t

/-- Modelled from the spec: the voter's up-to-date predicate of §5.4.1. -/
def RaftLog.isUpToDate (l : RaftLog) (lasti lastt : Nat) : Bool :=
  decide (l.lastTerm < lastt) ||
    ((lastt == l.lastTerm) && decide (l.lastIndex ≤ lasti))

/-- Modelled from the spec: `commit_to(i)` is monotonic; a backward move
is ignored (the source treats regressions as impossible for the inputs
it generates). -/
def RaftLog.commitTo (l : RaftLog) (i : Nat) : RaftLog :=
  if l.committed < i then { l with committed := i } else l

/-- Modelled from the spec: `applied_to(i)` records application progress;
`i = 0` is a no-op, as in the source call sites. -/
def RaftLog.appliedTo (l : RaftLog) (i : Nat) : RaftLog :=
  if i = 0 then l else { l with applied := i }

/-- Modelled from the spec: append entries at the tail of the log (the
callers construct them with the successive indices after `last_index`). -/
def RaftLog.append (l : RaftLog) (es : List Entry) : RaftLog :=
  { l with entries := l.entries ++ es }

/-- Modelled from the spec: `maybe_commit(max_idx, term)` advances
`committed` to `max_idx` only if `max_idx > committed` and
`term(max_idx) = term` — the current-term commit gate of §5.4.2. -/
def RaftLog.maybeCommit (l : RaftLog) (maxIdx t : Nat) : RaftLog × Bool :=
  if l.committed < maxIdx ∧ l.matchTerm maxIdx t then
    ({ l with committed := maxIdx }, true)
  else
    (l, false)

/-- Number of leading incoming entries whose `(index, term)` already
match the log; the first mismatch is the conflict point. -/
def RaftLog.findConflictCount (l : RaftLog) : List Entry → Nat
  | [] => 0
  | e :: rest =>
    if l.matchTerm e.index e.term then l.findConflictCount rest + 1 else 0

/-- Modelled from the spec: `maybe_append(prev_idx, prev_term,
leader_commit, entries)` — if `match_term(prev_idx, prev_term)` then drop
the conflicting suffix at the first index whose term differs, append the
remaining new entries, advance commit to `min(leader_commit,
last_new_index)` and return the new log with `last_new_index`; else fail. -/
def RaftLog.maybeAppend (l : RaftLog) (idx logterm leaderCommit : Nat)
    (ents : List Entry) : Option (RaftLog × Nat) :=
  if l.matchTerm idx logterm then
    let lastnewi := idx + ents.length
    let ci := l.findConflictCount ents
    let l2 := if ci = ents.length then l
      else { l with entries := l.entries.take (idx + ci - l.snapIndex) ++ ents.drop ci }
    some (l2.commitTo (min leaderCommit lastnewi), lastnewi)
  else
    none

/-- Modelled from the spec: `slice(lo, hi)` returns the entries with
indices in `[lo, hi)`; it fails below `first_index` (Compacted) or past
`last_index + 1` (the source's out-of-bounds fatal). -/
def RaftLog.slice (l : RaftLog) (lo hi : Nat) : Option (List Entry) :=
  if lo < hi then
    if lo ≤ l.snapIndex then none
    else if l.lastIndex + 1 < hi then none
    else some ((l.entries.drop (lo - l.snapIndex - 1)).take (hi - lo))
  else if hi < lo then none
  else some []

/-- Modelled from the spec: `entries(lo)` is the slice `[lo, last_index]`,
empty when the log ends before `lo`. -/
def RaftLog.Entries (l : RaftLog) (lo : Nat) : Option (List Entry) :=
  if l.lastIndex < lo then some [] else l.slice lo (l.lastIndex + 1)

/-- Modelled from the spec: `snapshot()` returns the pending snapshot if
one exists, else the Storage snapshot at the compaction boundary. -/
def RaftLog.snapshot (l : RaftLog) : Option Snap :=
  some (l.pendingSnapshot.getD { index := l.snapIndex, term := l.snapTerm, nodes := l.snapNodes })

/-- Modelled from the spec: `restore(snapshot)` discards all entries,
records the pending snapshot and adjusts the offsets so that
`first_index - 1 = snapshot.index` and `committed = snapshot.index`. -/
def RaftLog.restore (l : RaftLog) (s : Snap) : RaftLog :=
  { entries := [], snapIndex := s.index, snapTerm := s.term,
    snapNodes := s.nodes, committed := s.index, applied := l.applied,
    pendingSnapshot := some s }

/-- `numOfPendingConf` (raft.go lines 951-959): counts the ConfChange
entries in a slice. -/
def numOfPendingConf (ents : List Entry) : Nat :=
  ents.countP (fun e => e.entryType == .ConfChange)

/-- The Raft state (raft.go lines 130-180).  Go maps become association
lists; `None` is the id 0.  The shared global randomness source
(`globalRand`) is modelled as the stream `randStream` carried in the
state and consumed by `resetRandomizedElectionTimeout`. -/
structure Raft where
  id : Nat := 1
  Term : Nat := 0
  Vote : Nat := 0
  RaftLog : RaftLog := {}
  Prs : List (Nat × Progress) := []
  State : StateType := .Follower
  votes : List (Nat × Bool) := []
  msgs : List Message := []
  Lead : Nat := 0
  heartbeatTimeout : Nat := 1
  electionTimeout : Nat := 10
  randomizedElectionTimeout : Nat := 0
  leadTransferee : Nat := 0
  PendingConfIndex : Nat := 0
  electionElapsed : Nat := 0
  heartbeatElapsed : Nat := 0
  randStream : List Nat := []
deriving DecidableEq, Repr

/-- `Raft.quorum` (raft.go line 247): `len(r.Prs)/2 + 1`. -/
def Raft.quorum (r : Raft) : Nat := r.Prs.length / 2 + 1

/-- `Raft.getProgress` (raft.go lines 275-277). -/
def Raft.getProgress (r : Raft) (id : Nat) : Option Progress :=
  r.Prs.lookup id

/-- `Raft.send` (raft.go lines 250-273): stamp the sender, attach the
node's term to every message except campaign messages (which carry their
own) and proposals (which are local), append to the outbound buffer.
The source's assertion panics on mis-stamped terms are not modelled. -/
def Raft.send (r : Raft) (m : Message) : Raft :=
  let m := { m with mfrom := r.id }
  let m :=
    if m.msgType = .RequestVote ∨ m.msgType = .RequestVoteResponse then m
    else if m.msgType = .Propose then m
    else { m with term := r.Term }
  { r with msgs := r.msgs ++ [m] }

/-- Write back the (pointer-mutated, in Go) progress record of `id`. -/
def updatePr (prs : List (Nat × Progress)) (id : Nat) (pr : Progress) :
    List (Nat × Progress) :=
  prs.map (fun p => if p.1 = id then (p.1, pr) else p)

/-- `Raft.maybeCommit` (raft.go lines 370-380): collect the Match values,
sort ascending, pick position `len - quorum` as the maximal quorum-
replicated index, and invoke `RaftLog.maybeCommit` with it and the
node's term.  (The Go indexing requires a non-empty progress map; the
`getD` default is never reached there.) -/
def Raft.maybeCommit (r : Raft) : Raft × Bool :=
  let matchIndex := r.Prs.map (fun p => p.2.Match)
  let sorted := List.insertionSort (fun a b => a ≤ b) matchIndex
  let mci := sorted.getD (matchIndex.length - r.quorum) 0
  let res := r.RaftLog.maybeCommit mci r.Term
  ({ r with RaftLog := res.1 }, res.2)

/-- `Raft.reset` (raft.go lines 382-404): adopt the term (clearing the
vote if it changed), clear leader/timers/votes/transfer, re-draw the
randomized election timeout from the stream, and reinitialize every
progress to `{Match: 0 (self: last_index), Next: last_index + 1}`. -/
def Raft.reset (r : Raft) (term : Nat) : Raft :=
  let r := if r.Term ≠ term then { r with Term := term, Vote := 0 } else r
  { r with
    Lead := 0,
    electionElapsed := 0,
    heartbeatElapsed := 0,
    randomizedElectionTimeout :=
      r.electionTimeout + r.randStream.headD 0 % r.electionTimeout,
    randStream := r.randStream.tail,
    leadTransferee := 0,
    votes := [],
    Prs := r.Prs.map (fun p =>
      (p.1, { Match := if p.1 = r.id then r.RaftLog.lastIndex else 0,
              Next := r.RaftLog.lastIndex + 1 })),
    PendingConfIndex := 0 }

/-- `Raft.becomeFollower` (raft.go lines 472-478). -/
def Raft.becomeFollower (r : Raft) (term lead : Nat) : Raft :=
  let r := r.reset term
  { r with Lead := lead, State := .Follower }

/-- Modelled from the spec: `become_candidate` is a lab stub
(Leader_Election_Step3); §4.3 prescribes `term := term + 1`,
`vote := self.id`, clear votes then record the self-vote, `lead := None`,
`role := Candidate`. -/
def Raft.becomeCandidate (r : Raft) : Raft :=
  let r := r.reset (r.Term + 1)
  { r with Vote := r.id, votes := [(r.id, true)], State := .Candidate }

/-- `Raft.appendEntry` (raft.go lines 406-419); the index/term stamping
is the lab stub Replication_Step1, modelled from the spec: each entry
gets the node's term and the next consecutive index, then the entries
are appended, the self progress updated and a commit attempted. -/
def Raft.appendEntry (r : Raft) (es : List Entry) : Raft :=
  let li := r.RaftLog.lastIndex
  let es := es.enum.map (fun p => { p.2 with term := r.Term, index := li + 1 + p.1 })
  let l2 := r.RaftLog.append es
  let r := { r with RaftLog := l2 }
  let r :=
    match r.Prs.lookup r.id with
    | some pr => { r with Prs := updatePr r.Prs r.id (pr.maybeUpdate l2.lastIndex).1 }
    | none => r
  (r.maybeCommit).1

/-- `Raft.becomeLeader` (raft.go lines 491-508): reset at the current
term, take leadership, conservatively set `PendingConfIndex` to the last
index, and append the no-op entry of the new term. -/
def Raft.becomeLeader (r : Raft) : Raft :=
  let r := r.reset r.Term
  let r := { r with Lead := r.id, State := .Leader,
                    PendingConfIndex := r.RaftLog.lastIndex }
  r.appendEntry [{ data := [] }]

/-- `Raft.sendAppend` (raft.go lines 279-320); the entry-carrying branch
is the lab stub Replication_Step2, modelled from the spec §"Sending
AppendEntries": `{prev_idx, prev_term, entries, commit}`.  When the term
or entries lookup fails (compacted), a snapshot is sent instead; an
unavailable snapshot skips the round. -/
def Raft.sendAppend (r : Raft) (toId : Nat) : Raft × Bool :=
  match r.Prs.lookup toId with
  | none => (r, false)
  | some pr =>
    match r.RaftLog.Term (pr.Next - 1), r.RaftLog.Entries pr.Next with
    | some t, some ents =>
      (r.send { msgType := .Append, mto := toId, index := pr.Next - 1,
                logTerm := t, entries := ents,
                commit := r.RaftLog.committed }, true)
    | _, _ =>
      match r.RaftLog.snapshot with
      | some snap => (r.send { msgType := .Snapshot, mto := toId, snapshot := some snap }, true)
      | none => (r, false)

/-- `Raft.sendHeartbeat` (raft.go lines 322-337) is the lab stub
Leader_Election_Step7, modelled from the spec and the stub's comment:
the heartbeat carries `commit = min(pr.Match, committed)`. -/
def Raft.sendHeartbeat (r : Raft) (toId : Nat) : Raft :=
  let mt := match r.Prs.lookup toId with
    | some pr => pr.Match
    | none => 0
  r.send { msgType := .Heartbeat, mto := toId, commit := min mt r.RaftLog.committed }

/-- `Raft.bcastAppend` (raft.go lines 345-355). -/
def Raft.bcastAppend (r : Raft) : Raft :=
  r.Prs.foldl (fun acc p => if p.1 = acc.id then acc else (acc.sendAppend p.1).1) r

/-- `Raft.bcastHeartbeat` (raft.go lines 357-365). -/
def Raft.bcastHeartbeat (r : Raft) : Raft :=
  r.Prs.foldl (fun acc p => if p.1 = acc.id then acc else acc.sendHeartbeat p.1) r

/-- `Raft.sendTimeoutNow` (raft.go lines 943-945). -/
def Raft.sendTimeoutNow (r : Raft) (toId : Nat) : Raft :=
  r.send { msgType := .TimeoutNow, mto := toId }

/-- `Raft.poll` (raft.go lines 535-550): record the vote (first entry
per voter wins) and count the grants. -/
def Raft.poll (r : Raft) (id : Nat) (v : Bool) : Raft × Nat :=
  let votes := if (r.votes.lookup id).isSome then r.votes else r.votes ++ [(id, v)]
  let r := { r with votes := votes }
  (r, (votes.filter (fun p => p.2)).length)

/-- `Raft.promotable` (raft.go lines 882-887). -/
def Raft.promotable (r : Raft) : Bool :=
  (r.Prs.lookup r.id).isSome

/-- `Raft.campaign` (raft.go lines 510-533); the single-node victory
branch is the lab stub Leader_Election_Step4, modelled from its comment
and the spec: having won with the self-vote, become leader.  Otherwise
request votes from every other peer. -/
def Raft.campaign (r : Raft) : Raft :=
  let r := r.becomeCandidate
  let term := r.Term
  let pres := r.poll r.id true
  if pres.1.quorum = pres.2 then
    pres.1.becomeLeader
  else
    pres.1.Prs.foldl (fun acc p =>
      if p.1 = acc.id then acc
      else acc.send { msgType := .RequestVote, mto := p.1, term := term,
                      index := acc.RaftLog.lastIndex,
                      logTerm := acc.RaftLog.lastTerm }) pres.1

/-- `Raft.handleAppendEntries` (raft.go lines 809-827). -/
def Raft.handleAppendEntries (r : Raft) (m : Message) : Raft :=
  if m.index < r.RaftLog.committed then
    r.send { msgType := .AppendResponse, mto := m.mfrom, index := r.RaftLog.committed }
  else
    match r.RaftLog.maybeAppend m.index m.logTerm m.commit m.entries with
    | some (l2, mlastIndex) =>
      ({ r with RaftLog := l2 }).send
        { msgType := .AppendResponse, mto := m.mfrom, index := mlastIndex }
    | none =>
      r.send { msgType := .AppendResponse, mto := m.mfrom, index := m.index,
               reject := true, rejectHint := r.RaftLog.lastIndex }

/-- `Raft.handleHeartbeat` (raft.go lines 829-833). -/
def Raft.handleHeartbeat (r : Raft) (m : Message) : Raft :=
  ({ r with RaftLog := r.RaftLog.commitTo m.commit }).send
    { msgType := .HeartbeatResponse, mto := m.mfrom }

/-- `Raft.restore` (raft.go lines 849-880, with `restoreNode` inlined):
a stale snapshot is refused; a snapshot matching an existing entry only
fast-forwards the commit; otherwise the log is reset to the snapshot and
the progress map rebuilt from the snapshot's nodes. -/
def Raft.restore (r : Raft) (s : Snap) : Raft × Bool :=
  if s.index ≤ r.RaftLog.committed then
    (r, false)
  else if r.RaftLog.matchTerm s.index s.term then
    ({ r with RaftLog := r.RaftLog.commitTo s.index }, false)
  else
    let l2 := r.RaftLog.restore s
    let prs := s.nodes.map (fun n =>
      (n, { Match := if n = r.id then l2.lastIndex else 0,
            Next := l2.lastIndex + 1 : Progress }))
    ({ r with RaftLog := l2, Prs := prs }, true)

/-- `Raft.handleSnapshot` (raft.go lines 835-847).  A snapshot message
always carries a snapshot; the source dereferences it unconditionally. -/
def Raft.handleSnapshot (r : Raft) (m : Message) : Raft :=
  match m.snapshot with
  | none => r
  | some s =>
    let res := r.restore s
    if res.2 then
      res.1.send { msgType := .AppendResponse, mto := m.mfrom,
                   index := res.1.RaftLog.lastIndex }
    else
      res.1.send { msgType := .AppendResponse, mto := m.mfrom,
                   index := res.1.RaftLog.committed }

/-- `Raft.stepLeader` (raft.go lines 638-739).  The commit broadcast on
a positive AppendResponse is the lab stub Replication_Step3, modelled
from the spec: on a Match advance, attempt to commit and broadcast
AppendEntries if the commit moved. -/
def Raft.stepLeader (r : Raft) (m : Message) : Raft × StepResult :=
  let pr? := r.Prs.lookup m.mfrom
  if pr?.isNone ∧ m.msgType ≠ .Beat ∧ m.msgType ≠ .Propose then (r, .ok)
  else
    match m.msgType with
    | .Beat => (r.bcastHeartbeat, .ok)
    | .Propose =>
      if m.entries = [] then (r, .fatal)
      else if (r.Prs.lookup r.id).isNone then (r, .proposalDropped)
      else if r.leadTransferee ≠ 0 then (r, .proposalDropped)
      else
        let acc := m.entries.enum.foldl
          (fun (acc : Raft × List Entry) ie =>
            if ie.2.entryType = .ConfChange then
              if acc.1.PendingConfIndex > acc.1.RaftLog.applied then
                (acc.1, acc.2 ++ [{ entryType := .Normal }])
              else
                ({ acc.1 with PendingConfIndex := acc.1.RaftLog.lastIndex + ie.1 + 1 },
                 acc.2 ++ [ie.2])
            else (acc.1, acc.2 ++ [ie.2])) (r, [])
        ((acc.1.appendEntry acc.2).bcastAppend, .ok)
    | .AppendResponse =>
      match pr? with
      | none => (r, .ok)
      | some pr =>
        if m.reject then
          let dres := pr.maybeDecrTo m.index m.rejectHint
          if dres.2 then
            let r := { r with Prs := updatePr r.Prs m.mfrom dres.1 }
            ((r.sendAppend m.mfrom).1, .ok)
          else (r, .ok)
        else
          let ures := pr.maybeUpdate m.index
          let r := { r with Prs := updatePr r.Prs m.mfrom ures.1 }
          if ures.2 then
            let cres := r.maybeCommit
            let r := if cres.2 then cres.1.bcastAppend else cres.1
            let r :=
              if m.mfrom = r.leadTransferee ∧ ures.1.Match = r.RaftLog.lastIndex then
                r.sendTimeoutNow m.mfrom
              else r
            (r, .ok)
          else (r, .ok)
    | .HeartbeatResponse =>
      match pr? with
      | none => (r, .ok)
      | some pr =>
        if pr.Match < r.RaftLog.lastIndex then ((r.sendAppend m.mfrom).1, .ok)
        else (r, .ok)
    | .TransferLeader =>
      let leadTransferee := m.mfrom
      let lastLeadTransferee := r.leadTransferee
      if lastLeadTransferee ≠ 0 ∧ lastLeadTransferee = leadTransferee then (r, .ok)
      else
        let r := if lastLeadTransferee ≠ 0 then { r with leadTransferee := 0 } else r
        if leadTransferee = r.id then (r, .ok)
        else
          let r := { r with electionElapsed := 0, leadTransferee := leadTransferee }
          if (pr?.map Progress.Match).getD 0 = r.RaftLog.lastIndex then
            (r.sendTimeoutNow leadTransferee, .ok)
          else
            ((r.sendAppend leadTransferee).1, .ok)
    | _ => (r, .ok)

/-- `Raft.stepCandidate` (raft.go lines 741-771).  The vote-counting
outcome is the lab stub Leader_Election_Step6, modelled from the spec:
a quorum of grants elects the node (which then broadcasts); a quorum of
rejections returns it to follower at its own term. -/
def Raft.stepCandidate (r : Raft) (m : Message) : Raft × StepResult :=
  match m.msgType with
  | .Propose => (r, .proposalDropped)
  | .Append => ((r.becomeFollower m.term m.mfrom).handleAppendEntries m, .ok)
  | .Heartbeat => ((r.becomeFollower m.term m.mfrom).handleHeartbeat m, .ok)
  | .Snapshot => ((r.becomeFollower m.term m.mfrom).handleSnapshot m, .ok)
  | .RequestVoteResponse =>
    let pres := r.poll m.mfrom (!m.reject)
    if pres.2 = pres.1.quorum then
      ((pres.1.becomeLeader).bcastAppend, .ok)
    else if pres.1.votes.length - pres.2 = pres.1.quorum then
      (pres.1.becomeFollower pres.1.Term 0, .ok)
    else (pres.1, .ok)
  | _ => (r, .ok)

/-- `Raft.stepFollower` (raft.go lines 773-807). -/
def Raft.stepFollower (r : Raft) (m : Message) : Raft × StepResult :=
  match m.msgType with
  | .Propose => (r, .proposalDropped)
  | .Append =>
    (({ r with electionElapsed := 0, Lead := m.mfrom }).handleAppendEntries m, .ok)
  | .Heartbeat =>
    (({ r with electionElapsed := 0, Lead := m.mfrom }).handleHeartbeat m, .ok)
  | .Snapshot =>
    (({ r with electionElapsed := 0, Lead := m.mfrom }).handleSnapshot m, .ok)
  | .TransferLeader =>
    if r.Lead = 0 then (r, .ok) else (r.send { m with mto := r.Lead }, .ok)
  | .TimeoutNow =>
    if r.promotable then (r.campaign, .ok) else (r, .ok)
  | _ => (r, .ok)

/-- The term-gating prelude of `Raft.Step` (raft.go lines 554-570):
local messages pass through, a higher term makes the node a follower
(adopting the sender as leader exactly for AppendEntries, Heartbeat and
Snapshot messages), a lower term is dropped silently. -/
def Raft.stepTermGate (r : Raft) (m : Message) : Option Raft :=
  if m.term = 0 then some r
  else if r.Term < m.term then
    some (r.becomeFollower m.term
      (if m.msgType = .Append ∨ m.msgType = .Heartbeat ∨ m.msgType = .Snapshot
       then m.mfrom else 0))
  else if m.term < r.Term then none
  else some r

/-- The message dispatch of `Raft.Step` (raft.go lines 572-632): Hup and
RequestVote are handled uniformly, everything else by role.  The
RequestVote grant condition is the lab stub Leader_Election_Step5,
modelled from the spec §"RequestVote": grant iff `vote = None` or
`vote = m.from`, and the candidate's log is up to date. -/
def Raft.stepMsg (r : Raft) (m : Message) : Raft × StepResult :=
  if m.msgType = .Hup then
    if r.State ≠ .Leader then
      match r.RaftLog.slice (r.RaftLog.applied + 1) (r.RaftLog.committed + 1) with
      | none => (r, .fatal)
      | some ents =>
        if numOfPendingConf ents ≠ 0 ∧ r.RaftLog.applied < r.RaftLog.committed then
          (r, .ok)
        else (r.campaign, .ok)
    else (r, .ok)
  else if m.msgType = .RequestVote then
    let canVote := r.Vote = m.mfrom ∨ r.Vote = 0
    if canVote ∧ r.RaftLog.isUpToDate m.index m.logTerm then
      let r := r.send { msgType := .RequestVoteResponse, mto := m.mfrom, term := m.term }
      ({ r with electionElapsed := 0, Vote := m.mfrom }, .ok)
    else
      (r.send { msgType := .RequestVoteResponse, mto := m.mfrom, term := r.Term,
                reject := true }, .ok)
  else
    match r.State with
    | .Follower => r.stepFollower m
    | .Candidate => r.stepCandidate m
    | .Leader => r.stepLeader m

/-- `Raft.Step` (raft.go lines 552-634): term gating, then dispatch. -/
def Raft.step (r : Raft) (m : Message) : Raft × StepResult :=
  match r.stepTermGate m with
  | none => (r, .ok)
  | some r2 => r2.stepMsg m

/-- The Storage contract, reduced to the data `newRaft` consults:
`InitialState` (hard state and conf state) plus the persisted log. -/
structure Storage where
  hardState : HardState := {}
  confNodes : List Nat := []
  snapIndex : Nat := 0
  snapTerm : Nat := 0
  ents : List Entry := []
deriving DecidableEq, Repr

/-- `IsEmptyHardState`. -/
def isEmptyHardState (hs : HardState) : Bool :=
  hs == {}

/-- Modelled from the spec: `newLog(storage)` (the RaftLog constructor
is not among the provided sources) initializes the log from Storage with
`committed` and `applied` at the compaction boundary. -/
def newLog (s : Storage) : RaftLog :=
  { entries := s.ents, snapIndex := s.snapIndex, snapTerm := s.snapTerm,
    snapNodes := s.confNodes, committed := s.snapIndex,
    applied := s.snapIndex, pendingSnapshot := none }

/-- `Raft.loadState` (raft.go lines 923-930); the out-of-range fatal
check is not modelled (its inputs come from a consistent Storage). -/
def Raft.loadState (r : Raft) (hs : HardState) : Raft :=
  { r with RaftLog := { r.RaftLog with committed := hs.commit },
           Term := hs.term, Vote := hs.vote }

/-- `newRaft` (raft.go lines 183-227): build the log from Storage, take
the peer set from the ConfState when present (else from the config),
give every peer `Progress{Next: 1}`, load the hard state, record the
applied index, and enter Follower at the loaded term with no leader. -/
def newRaft (id electionTick heartbeatTick applied : Nat) (cpeers : List Nat)
    (s : Storage) (rand : List Nat) : Raft :=
  let raftlog := newLog s
  let peers := if s.confNodes ≠ [] then s.confNodes else cpeers
  let r : Raft :=
    { id := id, Lead := 0, RaftLog := raftlog,
      Prs := peers.map (fun p => (p, { Next := 1 })),
      electionTimeout := electionTick, heartbeatTimeout := heartbeatTick,
      randStream := rand }
  let r := if ¬ isEmptyHardState s.hardState then r.loadState s.hardState else r
  let r := if 0 < applied then { r with RaftLog := r.RaftLog.appliedTo applied } else r
  r.becomeFollower r.Term 0

/-- The peer constructor of the raftstore (peer.go `NewPeer`, lines
137-159): build the Raft node and, when the region has exactly one peer
and it is this store, campaign directly.  `RawNode.Campaign` is not
among the provided sources; modelled from the spec §"Driver-facing
operations": `campaign()` force-steps a `Hup`. -/
def NewPeer (id electionTick heartbeatTick : Nat) (cpeers : List Nat)
    (s : Storage) (rand : List Nat) : Raft × StepResult :=
  let r := newRaft id electionTick heartbeatTick 0 cpeers s rand
  if cpeers = [id] then r.step { msgType := .Hup } else (r, .ok)

/-- Spec-side definition for C1, following the spec's words: sort the
Match values descending; the Q-th highest (1-indexed from the highest)
is the largest quorum-replicated index. -/
def kthHighest (xs : List Nat) (k : Nat) : Nat :=
  (List.insertionSort (· ≥ ·) xs).getD (k - 1) 0

/-- A concrete follower at term 2 used by witnesses. -/
def wFollower : Raft :=
  { Term := 2, Prs := [(1, { Match := 0, Next := 1 })] }

/-- A concrete follower whose log has an unapplied committed ConfChange. -/
def wConfPending : Raft :=
  { RaftLog := { entries := [{ entryType := .ConfChange, term := 1, index := 1 }],
                 committed := 1 } }

/-- Normal form of `maybeUpdate`: the result is
`{Match := max Match n, Next := max Next (n+1)}` and the boolean reports
whether `Match` advanced. -/
theorem maybeUpdate_eq (pr : Progress) (n : Nat) :
    pr.maybeUpdate n =
      ({ Match := max pr.Match n, Next := max pr.Next (n + 1) },
        decide (pr.Match < n)) := by
  obtain ⟨pm, pn⟩ := pr
  simp only [Progress.maybeUpdate]
  by_cases h1 : pm < n <;> by_cases h2 : pn < n + 1 <;>
    simp [h1, h2, Progress.mk.injEq] <;> omega

/-- C8: `maybeUpdate n` reports an advance (returning true, setting
`Match := n` and `Next := max Next (n+1)`) exactly when `n > Match`,
and a second application with the same index changes nothing and
returns false — so of a sequence of positive AppendEntriesResponses
carrying the same index only the first updates the progress. -/
theorem claim_C8_maybeUpdate_first_only (pr : Progress) (n : Nat) :
    (((pr.maybeUpdate n).2 = true ∧
        (pr.maybeUpdate n).1 = { Match := n, Next := max pr.Next (n + 1) }) ↔
      pr.Match < n) ∧
    (pr.maybeUpdate n).1.maybeUpdate n = ((pr.maybeUpdate n).1, false) := by
  have he := maybeUpdate_eq pr n
  constructor
  · constructor
    · rintro ⟨h1, -⟩
      rw [he] at h1
      simpa using h1
    · intro h
      rw [he]
      simp [h, Nat.max_eq_right (Nat.le_of_lt h)]
  · rw [he]
    rw [maybeUpdate_eq]
    simp only [Prod.mk.injEq, Progress.mk.injEq, decide_eq_false_iff_not]
    refine ⟨⟨by omega, by omega⟩, by omega⟩

/-- C2 (amended): `Match < Next` holds for every Progress record after
initialization (`newRaft`) and after `reset` on a role change, is
preserved by `maybeUpdate n` for every `n`, and is preserved by
`maybeDecrTo rejected last_hint` for every accepted (non-stale)
rejection whose `last_hint` is at least `Match`. -/
theorem claim_C2_match_lt_next :
    (∀ id et ht ap cpeers s rand p,
        p ∈ (newRaft id et ht ap cpeers s rand).Prs → p.2.Match < p.2.Next) ∧
    (∀ (r : Raft) (term : Nat) p,
        p ∈ (r.reset term).Prs → p.2.Match < p.2.Next) ∧
    (∀ (pr : Progress) (n : Nat), pr.Match < pr.Next →
        (pr.maybeUpdate n).1.Match < (pr.maybeUpdate n).1.Next) ∧
    (∀ (pr : Progress) (rejected hint : Nat), pr.Match ≤ hint →
        (pr.maybeDecrTo rejected hint).2 = true →
        (pr.maybeDecrTo rejected hint).1.Match <
          (pr.maybeDecrTo rejected hint).1.Next) := by
  have hreset : ∀ (r : Raft) (term : Nat) p,
      p ∈ (r.reset term).Prs → p.2.Match < p.2.Next := by
    intro r term p hp
    simp only [Raft.reset] at hp
    split at hp <;>
    · simp only [List.mem_map] at hp
      obtain ⟨a, -, rfl⟩ := hp
      dsimp only
      split <;> omega
  refine ⟨?_, hreset, ?_, ?_⟩
  · intro id et ht ap cpeers s rand p hp
    simp only [newRaft, Raft.becomeFollower] at hp
    exact hreset _ _ _ hp
  · intro pr n h
    rw [maybeUpdate_eq]
    dsimp only
    omega
  · intro pr rejected hint h1 h2
    simp only [Progress.maybeDecrTo] at h2 ⊢
    by_cases hrej : rejected ≤ pr.Match
    · simp [hrej] at h2
    · simp only [if_neg hrej]
      split <;> omega

/-- C2 counterexample: a non-stale rejection (`rejected > Match`) whose
hint points below `Match` breaks the invariant: from `{Match := 5,
Next := 6}`, `maybeDecrTo 10 2` is accepted yet yields `Next = 3 ≤ Match`. -/
theorem claim_C2_counterexample :
    (Progress.mk 5 6).Match < (Progress.mk 5 6).Next ∧
    ((Progress.mk 5 6).maybeDecrTo 10 2).2 = true ∧
    ¬ (((Progress.mk 5 6).maybeDecrTo 10 2).1.Match <
        ((Progress.mk 5 6).maybeDecrTo 10 2).1.Next) := by decide

/-- C2 witness: the amended preservation applied at `{Match := 3,
Next := 4}` with a non-stale rejection and hint `5 ≥ Match`. -/
theorem claim_C2_witness :
    ((Progress.mk 3 4).maybeDecrTo 9 5).1.Match <
      ((Progress.mk 3 4).maybeDecrTo 9 5).1.Next :=
  claim_C2_match_lt_next.2.2.2 (Progress.mk 3 4) 9 5 (by decide) (by decide)

/-- C3: a message with `0 < m.term < r.Term` is dropped silently: `Step`
returns nil, appends no outbound message and leaves the whole state
unchanged, so replaying it any number of times is a no-op. -/
theorem claim_C3_lower_term_noop (r : Raft) (m : Message)
    (h0 : 0 < m.term) (h1 : m.term < r.Term) :
    r.step m = (r, .ok) ∧
    ∀ k, (fun s => (Raft.step s m).1)^[k] r = r := by
  have hgate : r.stepTermGate m = none := by
    simp only [Raft.stepTermGate]
    rw [if_neg (by omega), if_neg (by omega), if_pos h1]
  have hstep : r.step m = (r, .ok) := by
    simp only [Raft.step, hgate]
  refine ⟨hstep, ?_⟩
  intro k
  induction k with
  | zero => rfl
  | succ n ih =>
    rw [Function.iterate_succ_apply]
    simpa [hstep] using ih

/-- C3 witness: a follower at term 2 dropping a term-1 AppendEntries. -/
theorem claim_C3_witness :
    Raft.step wFollower { msgType := .Append, term := 1 } =
      (wFollower, .ok) :=
  (claim_C3_lower_term_noop wFollower { msgType := .Append, term := 1 }
    (by decide) (by decide)).1

/-- C4: a message with `m.term > r.Term` first turns the node into a
follower at `m.term` with the vote cleared, recording `m.from` as
leader exactly when the message is AppendEntries, Heartbeat or
Snapshot (leader None otherwise), and only then dispatches the message
to the role-specific handler. -/
theorem claim_C4_higher_term_step_down (r : Raft) (m : Message)
    (h : r.Term < m.term) :
    let lead := if m.msgType = .Append ∨ m.msgType = .Heartbeat ∨
                   m.msgType = .Snapshot then m.mfrom else 0
    let r2 := r.becomeFollower m.term lead
    r.stepTermGate m = some r2 ∧
    r2.State = .Follower ∧ r2.Term = m.term ∧ r2.Vote = 0 ∧
    r2.Lead = lead ∧ r.step m = r2.stepMsg m := by
  intro lead r2
  have hne : r.Term ≠ m.term := Nat.ne_of_lt h
  have hgate : r.stepTermGate m = some r2 := by
    simp only [Raft.stepTermGate]
    rw [if_neg (by omega), if_pos h]
  refine ⟨hgate, rfl, ?_, ?_, rfl, ?_⟩
  · show (r.reset m.term).Term = m.term
    simp [Raft.reset, if_pos hne]
  · show (r.reset m.term).Vote = 0
    simp [Raft.reset, if_pos hne]
  · simp only [Raft.step, hgate]

/-- C4 witness: a follower at term 2 stepping a term-3 RequestVote
becomes a follower at term 3 with no leader and a cleared vote. -/
theorem claim_C4_witness :
    wFollower.stepTermGate { msgType := .RequestVote, mfrom := 7, term := 3 } =
      some (wFollower.becomeFollower 3 0) ∧
    (wFollower.becomeFollower 3 0).Term = 3 ∧
    (wFollower.becomeFollower 3 0).Vote = 0 := by
  have h := claim_C4_higher_term_step_down wFollower
    { msgType := .RequestVote, mfrom := 7, term := 3 } (by decide)
  exact ⟨h.1, h.2.2.1, h.2.2.2.1⟩

/-- C10: a non-leader whose slice `(applied, committed]` contains a
pending ConfChange entry (with `committed > applied`) refuses to start
a campaign on Hup: `Step` returns nil and the state — role, term,
outbound messages — is exactly unchanged. -/
theorem claim_C10_hup_blocked_by_pending_conf (r : Raft) (m : Message)
    (ents : List Entry) (hst : r.State ≠ .Leader) (hty : m.msgType = .Hup)
    (ht : m.term = 0)
    (hs : r.RaftLog.slice (r.RaftLog.applied + 1) (r.RaftLog.committed + 1) =
      some ents)
    (hn : numOfPendingConf ents ≠ 0)
    (hc : r.RaftLog.applied < r.RaftLog.committed) :
    r.step m = (r, .ok) := by
  have hgate : r.stepTermGate m = some r := by
    simp [Raft.stepTermGate, ht]
  simp only [Raft.step, hgate, Raft.stepMsg, hty, if_pos rfl, if_neg hst, hs]
  simp [hn, hc, hst]

/-- C10 witness: a follower with a committed, unapplied ConfChange at
index 1 ignores Hup. -/
theorem claim_C10_witness :
    wConfPending.step { msgType := .Hup } = (wConfPending, .ok) :=
  claim_C10_hup_blocked_by_pending_conf wConfPending { msgType := .Hup }
    [{ entryType := .ConfChange, term := 1, index := 1 }]
    (by decide) rfl rfl (by decide) (by decide) (by decide)

/-- C9: with a one-peer configuration the peer constructor campaigns on
construction and the node immediately becomes Leader at term 1, its
no-op entry at `(index 1, term 1)` committed by the quorum of one. -/
theorem claim_C9_single_node_self_elects :
    (NewPeer 1 10 1 [1] {} []).2 = .ok ∧
    (NewPeer 1 10 1 [1] {} []).1.State = .Leader ∧
    (NewPeer 1 10 1 [1] {} []).1.Term = 1 ∧
    (NewPeer 1 10 1 [1] {} []).1.RaftLog.entries =
      [{ entryType := .Normal, term := 1, index := 1, data := [] }] ∧
    (NewPeer 1 10 1 [1] {} []).1.RaftLog.committed = 1 := by
  refine ⟨rfl, rfl, rfl, rfl, rfl⟩

/-- C5: handling AppendEntries after term gating: a prev-index below
`committed` is answered with `{index: committed}`; a successful
`maybeAppend` is answered with the index of the last new entry; a failed
one with `{index: m.index, reject, reject_hint: last_index}`. -/
theorem claim_C5_handleAppendEntries (r : Raft) (m : Message) :
    (m.index < r.RaftLog.committed →
      r.handleAppendEntries m =
        r.send { msgType := .AppendResponse, mto := m.mfrom,
                 index := r.RaftLog.committed }) ∧
    (∀ l2 lastnew, ¬ m.index < r.RaftLog.committed →
      r.RaftLog.maybeAppend m.index m.logTerm m.commit m.entries =
        some (l2, lastnew) →
      r.handleAppendEntries m =
        ({ r with RaftLog := l2 }).send
          { msgType := .AppendResponse, mto := m.mfrom, index := lastnew } ∧
      lastnew = m.index + m.entries.length) ∧
    (¬ m.index < r.RaftLog.committed →
      r.RaftLog.maybeAppend m.index m.logTerm m.commit m.entries = none →
      r.handleAppendEntries m =
        r.send { msgType := .AppendResponse, mto := m.mfrom, index := m.index,
                 reject := true, rejectHint := r.RaftLog.lastIndex }) := by
  refine ⟨?_, ?_, ?_⟩
  · intro h
    simp [Raft.handleAppendEntries, h]
  · intro l2 lastnew h hma
    refine ⟨by simp [Raft.handleAppendEntries, h, hma], ?_⟩
    simp only [RaftLog.maybeAppend] at hma
    split at hma
    · simp only [Option.some.injEq, Prod.mk.injEq] at hma
      exact hma.2.symm
    · exact absurd hma (by simp)
  · intro h hma
    simp [Raft.handleAppendEntries, h, hma]

/-- C5 witness: the already-committed-prefix branch at a node with
`committed = 1` receiving `prev_idx = 0`. -/
theorem claim_C5_witness :
    wConfPending.handleAppendEntries { msgType := .Append, mfrom := 2 } =
      wConfPending.send { msgType := .AppendResponse, mto := 2,
                          index := wConfPending.RaftLog.committed } :=
  (claim_C5_handleAppendEntries wConfPending
    { msgType := .Append, mfrom := 2 }).1 (by decide)

/-- C6: handling a Snapshot message: a snapshot at or below `committed`
is dropped and answered with the current committed index; one matching
an existing entry only fast-forwards the commit to `snap.index` (no
restore, progress map untouched); otherwise the log is reset to the
snapshot, the progress map is rebuilt from the snapshot's nodes, and the
reply carries the new last index (`snap.index`). -/
theorem claim_C6_handleSnapshot (r : Raft) (m : Message) (s : Snap)
    (hm : m.snapshot = some s) :
    (s.index ≤ r.RaftLog.committed →
      r.handleSnapshot m =
        r.send { msgType := .AppendResponse, mto := m.mfrom,
                 index := r.RaftLog.committed }) ∧
    (r.RaftLog.committed < s.index →
      r.RaftLog.matchTerm s.index s.term = true →
      (r.handleSnapshot m).RaftLog.committed = s.index ∧
      (r.handleSnapshot m).RaftLog.entries = r.RaftLog.entries ∧
      (r.handleSnapshot m).Prs = r.Prs ∧
      (r.handleSnapshot m).msgs = r.msgs ++
        [{ msgType := .AppendResponse, mfrom := r.id, mto := m.mfrom,
           term := r.Term, index := s.index }]) ∧
    (r.RaftLog.committed < s.index →
      r.RaftLog.matchTerm s.index s.term = false →
      (r.handleSnapshot m).RaftLog = r.RaftLog.restore s ∧
      (r.handleSnapshot m).Prs = s.nodes.map (fun n =>
        (n, { Match := if n = r.id then s.index else 0,
              Next := s.index + 1 : Progress })) ∧
      (r.handleSnapshot m).msgs = r.msgs ++
        [{ msgType := .AppendResponse, mfrom := r.id, mto := m.mfrom,
           term := r.Term, index := s.index }]) := by
  refine ⟨?_, ?_, ?_⟩
  · intro h
    simp [Raft.handleSnapshot, hm, Raft.restore, h]
  · intro h1 h2
    have hn : ¬ s.index ≤ r.RaftLog.committed := by omega
    simp only [Raft.handleSnapshot, hm, Raft.restore, if_neg hn, if_pos h2]
    simp [RaftLog.commitTo, if_pos h1, Raft.send]
  · intro h1 h2
    have hn : ¬ s.index ≤ r.RaftLog.committed := by omega
    have h2' : ¬ (r.RaftLog.matchTerm s.index s.term = true) := by
      simp [h2]
    simp only [Raft.handleSnapshot, hm, Raft.restore, if_neg hn, if_neg h2']
    simp [RaftLog.restore, RaftLog.lastIndex, Raft.send]

/-- C6 witness: the stale-snapshot branch at a node with `committed = 1`
receiving a snapshot at index 1. -/
theorem claim_C6_witness :
    wConfPending.handleSnapshot
        { msgType := .Snapshot, mfrom := 2,
          snapshot := some { index := 1, term := 1 } } =
      wConfPending.send { msgType := .AppendResponse, mto := 2,
                          index := wConfPending.RaftLog.committed } :=
  (claim_C6_handleSnapshot wConfPending
    { msgType := .Snapshot, mfrom := 2, snapshot := some { index := 1, term := 1 } }
    { index := 1, term := 1 } rfl).1 (by decide)

/-- C7: a non-empty local Propose is answered with ProposalDropped
exactly when the node is a Follower or Candidate, or is a Leader whose
own id is gone from the progress map, or a leader transfer is in
flight; in each of those cases the state (log and outbound messages
included) is exactly unchanged. -/
theorem claim_C7_propose_dropped (r : Raft) (m : Message)
    (hty : m.msgType = .Propose) (hne : m.entries ≠ []) (ht : m.term = 0) :
    ((r.step m).2 = .proposalDropped ↔
      (r.State = .Follower ∨ r.State = .Candidate ∨
        (r.State = .Leader ∧
          (r.Prs.lookup r.id = none ∨ r.leadTransferee ≠ 0)))) ∧
    ((r.step m).2 = .proposalDropped → (r.step m).1 = r) := by
  have hgate : r.stepTermGate m = some r := by
    simp [Raft.stepTermGate, ht]
  have hstep : r.step m = r.stepMsg m := by
    simp [Raft.step, hgate]
  rw [hstep]
  rcases hst : r.State with _ | _ | _
  · simp [Raft.stepMsg, hty, Raft.stepFollower, hst]
  · simp [Raft.stepMsg, hty, Raft.stepCandidate, hst]
  · simp only [Raft.stepMsg, hty]
    simp only [Raft.stepLeader, hty, hst]
    by_cases hid : r.Prs.lookup r.id = none
    · simp [hne, hid, Option.isNone_iff_eq_none]
    · by_cases htr : r.leadTransferee = 0
      · simp [hne, hid, htr, Option.isNone_iff_eq_none]
      · simp [hne, hid, htr, Option.isNone_iff_eq_none]

/-- C7 witness: a follower drops a proposal unchanged. -/
theorem claim_C7_witness :
    (wFollower.step
        { msgType := .Propose, entries := [{ data := [1] }] }).2 =
      .proposalDropped ∧
    (wFollower.step
        { msgType := .Propose, entries := [{ data := [1] }] }).1 =
      wFollower := by
  have h := claim_C7_propose_dropped wFollower
    { msgType := .Propose, entries := [{ data := [1] }] }
    rfl (by decide) rfl
  have hd := h.1.mpr (Or.inl rfl)
  exact ⟨hd, h.2 hd⟩

/-- Sorting descending is reversing the ascending sort. -/
theorem insertionSort_ge_eq_reverse (xs : List Nat) :
    List.insertionSort (· ≥ ·) xs =
      (List.insertionSort (· ≤ ·) xs).reverse := by
  apply List.eq_of_perm_of_sorted (r := fun a b : Nat => a ≥ b)
  · exact (List.perm_insertionSort _ xs).trans
      ((List.perm_insertionSort (· ≤ ·) xs).symm.trans
        (List.reverse_perm _).symm)
  · exact List.sorted_insertionSort _ xs
  · rw [List.Sorted, List.pairwise_reverse]
    simpa [ge_iff_le] using List.sorted_insertionSort (· ≤ ·) xs

/-- The k-th highest element (1-indexed from the highest) is the element
at position `length - k` of the ascending sort. -/
theorem kthHighest_eq_sorted_getD (xs : List Nat) (k : Nat)
    (h1 : 1 ≤ k) (h2 : k ≤ xs.length) :
    kthHighest xs k =
      (List.insertionSort (· ≤ ·) xs).getD (xs.length - k) 0 := by
  unfold kthHighest
  rw [insertionSort_ge_eq_reverse]
  have hlen : (List.insertionSort (· ≤ ·) xs).length = xs.length :=
    List.length_insertionSort _ xs
  rw [List.getD_eq_getElem?_getD, List.getD_eq_getElem?_getD]
  rw [List.getElem?_reverse (by omega)]
  congr 2
  rw [hlen]
  omega

/-- C1: the leader's `maybeCommit` computes `mci` as the Q-th highest
Match value over the progress map (`Q = ⌊N/2⌋ + 1`, `N = |Prs|`) and
invokes `RaftLog.maybeCommit mci r.Term`; consequently, whenever the
commit index moves through this path, the log term at the newly
committed index equals the node's current term — an index of another
term never commits merely because a quorum's Match reaches it. -/
theorem claim_C1_maybeCommit_quorum_and_term_gate (r : Raft)
    (h : r.Prs ≠ []) :
    (r.maybeCommit =
      (let mci := kthHighest (r.Prs.map (fun p => p.2.Match)) r.quorum
       let res := r.RaftLog.maybeCommit mci r.Term
       ({ r with RaftLog := res.1 }, res.2))) ∧
    ((r.maybeCommit).1.RaftLog.committed ≠ r.RaftLog.committed →
      r.RaftLog.Term (r.maybeCommit).1.RaftLog.committed = some r.Term) := by
  have hlen : 1 ≤ r.Prs.length := by
    cases hp : r.Prs with
    | nil => exact absurd hp h
    | cons a l => simp
  have hq1 : 1 ≤ r.quorum := by simp [Raft.quorum]
  have hq2 : r.quorum ≤ (r.Prs.map (fun p => p.2.Match)).length := by
    simp only [List.length_map, Raft.quorum]
    omega
  constructor
  · simp only [Raft.maybeCommit]
    rw [kthHighest_eq_sorted_getD _ _ hq1 hq2]
  · intro hne
    simp only [Raft.maybeCommit, RaftLog.maybeCommit] at hne ⊢
    by_cases hcond : r.RaftLog.committed <
        (List.insertionSort (fun a b => a ≤ b)
          (r.Prs.map (fun p => p.2.Match))).getD
          ((r.Prs.map (fun p => p.2.Match)).length - r.quorum) 0 ∧
        r.RaftLog.matchTerm
          ((List.insertionSort (fun a b => a ≤ b)
            (r.Prs.map (fun p => p.2.Match))).getD
            ((r.Prs.map (fun p => p.2.Match)).length - r.quorum) 0) r.Term = true
    · simp only [if_pos hcond] at hne ⊢
      have := hcond.2
      simpa [RaftLog.matchTerm] using this
    · simp only [if_neg hcond] at hne ⊢
      exact absurd rfl hne

/-- C1 witness: the identity instantiated at a concrete one-peer state. -/
theorem claim_C1_witness :
    wFollower.maybeCommit =
      (let mci := kthHighest (wFollower.Prs.map (fun p => p.2.Match))
        wFollower.quorum
       let res := wFollower.RaftLog.maybeCommit mci wFollower.Term
       ({ wFollower with RaftLog := res.1 }, res.2)) :=
  (claim_C1_maybeCommit_quorum_and_term_gate wFollower (by decide)).1
